import Mathlib

/-!
Shallow embedding of the creative-tracker aggregation and parsing core
(`src/utils/parseExcel.ts`, `src/components/PerformanceDashboard.tsx`,
`src/components/ABTestView.tsx`, `src/App.tsx`).  Spreadsheet numbers are
modelled as rationals, strings as Lean strings; JavaScript truthiness of a
string field is modelled as the test against the empty string, and the
JS `Map` accumulators (which preserve insertion order) are modelled as
insertion-ordered lists updated by find-or-create traversals.
-/

/-- A creative asset row (`BrandAsset` in `src/types`).  The optional
`creativeName`/`category` labels are modelled as strings with `""` for the
absent value, matching JS falsiness of both `undefined` and `''`. -/
structure BrandAsset where
  assetType : String
  assetId : String
  assetName : String
  assetUrl : String
  creativeName : String
  category : String
  deriving Repr, DecidableEq

/-- One performance row (`CampaignData` in `src/types`).  Numeric metrics are
rationals (JS numbers holding the report's decimal data). -/
structure CampaignData where
  campaignId : String
  adGroupId : String
  adId : String
  keywordId : String
  productTargetingId : String
  productTargetingExpression : String
  campaignName : String
  adGroupName : String
  adName : String
  keywordText : String
  matchType : String
  videoAssetIds : String
  impressions : ℚ
  clicks : ℚ
  spend : ℚ
  sales : ℚ
  orders : ℚ
  units : ℚ
  ctr : ℚ
  conversionRate : ℚ
  acos : ℚ
  cpc : ℚ
  roas : ℚ
  deriving Repr, DecidableEq

/-- `assetMap.get`: the lookup map is built by
`assets.forEach(a => map.set(a.assetId, a))`, so a duplicate `assetId`
resolves to the last asset carrying that id. -/
def assetLookup (assets : List BrandAsset) (id : String) : Option BrandAsset :=
  assets.foldl (fun acc a => if a.assetId = id then some a else acc) none

/-- A stable insertion step: `x` goes in front of the first `y` with `le x y`.
Used to model `Array.prototype.sort`, which ECMA-262 requires to be stable. -/
def stableInsert (le : α → α → Bool) (x : α) : List α → List α
  | [] => [x]
  | y :: ys => if le x y then x :: y :: ys else y :: stableInsert le x ys

/-- Stable sort modelling `Array.prototype.sort(cmp)`: `le a b` means
`cmp(a, b) <= 0`, i.e. `a` may stay in front of `b`. -/
def jsSort (le : α → α → Bool) : List α → List α
  | [] => []
  | x :: xs => stableInsert le x (jsSort le xs)

/-! ## Performance view (`PerformanceDashboard.tsx`) -/

/-- One per-ad breakdown entry (`AdDetail`). -/
structure AdDetail where
  adName : String
  campaignName : String
  adGroupName : String
  impressions : ℚ
  clicks : ℚ
  spend : ℚ
  sales : ℚ
  orders : ℚ
  ctr : ℚ
  conversionRate : ℚ
  roas : ℚ
  deriving Repr, DecidableEq

/-- One aggregated group row (`AggregatedRow`). -/
structure AggregatedRow where
  name : String
  category : String
  impressions : ℚ
  clicks : ℚ
  spend : ℚ
  sales : ℚ
  orders : ℚ
  units : ℚ
  ctr : ℚ
  conversionRate : ℚ
  cpc : ℚ
  roas : ℚ
  adCount : ℚ
  ads : List AdDetail
  deriving Repr, DecidableEq

/-- The two grouping dimensions of the performance view. -/
inductive GroupBy where
  | creative
  | category
  deriving Repr, DecidableEq

/-- `asset?.creativeName || 'Unlabeled'` after `assetMap.get(campaign.videoAssetIds)`. -/
def creativeLabelFor (assets : List BrandAsset) (r : CampaignData) : String :=
  match assetLookup assets r.videoAssetIds with
  | some a => if a.creativeName = "" then "Unlabeled" else a.creativeName
  | none => "Unlabeled"

/-- `asset?.category || 'Uncategorized'`. -/
def categoryFor (assets : List BrandAsset) (r : CampaignData) : String :=
  match assetLookup assets r.videoAssetIds with
  | some a => if a.category = "" then "Uncategorized" else a.category
  | none => "Uncategorized"

/-- The group key of a record: resolved creative label or category. -/
def perfKey (gb : GroupBy) (assets : List BrandAsset) (r : CampaignData) : String :=
  match gb with
  | .creative => creativeLabelFor assets r
  | .category => categoryFor assets r

/-- A freshly created ad entry (the `existing.ads.push({...})` literal). -/
def newAdDetail (r : CampaignData) : AdDetail :=
  ⟨r.adName, r.campaignName, r.adGroupName,
   r.impressions, r.clicks, r.spend, r.sales, r.orders, 0, 0, 0⟩

/-- Merging a record into an existing ad entry with the same
(adName, campaignName, adGroupName) triple. -/
def bumpAdDetail (a : AdDetail) (r : CampaignData) : AdDetail :=
  { a with
    impressions := a.impressions + r.impressions
    clicks := a.clicks + r.clicks
    spend := a.spend + r.spend
    sales := a.sales + r.sales
    orders := a.orders + r.orders }

/-- Find-or-create on the per-ad list, keyed by the name triple. -/
def upsertAd (r : CampaignData) : List AdDetail → List AdDetail
  | [] => [newAdDetail r]
  | a :: rest =>
    if a.adName = r.adName ∧ a.campaignName = r.campaignName ∧ a.adGroupName = r.adGroupName
    then bumpAdDetail a r :: rest
    else a :: upsertAd r rest

/-- `if (campaign.adName) { ... }`: rows with an empty ad name do not touch
the per-ad breakdown list. -/
def updateAds (ads : List AdDetail) (r : CampaignData) : List AdDetail :=
  if r.adName = "" then ads else upsertAd r ads

/-- The `aggregations.get(key) || {...}` creation literal. -/
def newAggRow (key cat : String) : AggregatedRow :=
  ⟨key, cat, 0, 0, 0, 0, 0, 0, 0, 0, 0, 0, 0, []⟩

/-- Accumulating one record into a group row. -/
def bumpAggRow (row : AggregatedRow) (r : CampaignData) : AggregatedRow :=
  { row with
    impressions := row.impressions + r.impressions
    clicks := row.clicks + r.clicks
    spend := row.spend + r.spend
    sales := row.sales + r.sales
    orders := row.orders + r.orders
    units := row.units + r.units
    adCount := row.adCount + 1
    ads := updateAds row.ads r }

/-- Find-or-create on the insertion-ordered group list (the `aggregations`
map keyed by the resolved label/category). -/
def upsertAggRow (gb : GroupBy) (assets : List BrandAsset) (r : CampaignData) :
    List AggregatedRow → List AggregatedRow
  | [] => [bumpAggRow (newAggRow (perfKey gb assets r) (categoryFor assets r)) r]
  | row :: rest =>
    if row.name = perfKey gb assets r
    then bumpAggRow row r :: rest
    else row :: upsertAggRow gb assets r rest

/-- The accumulation pass of `aggregatedData` (before derived metrics). -/
def perfAccum (gb : GroupBy) (assets : List BrandAsset) (records : List CampaignData) :
    List AggregatedRow :=
  records.foldl (fun rows r => upsertAggRow gb assets r rows) []

/-- Derived metrics of one ad entry. -/
def deriveAd (a : AdDetail) : AdDetail :=
  { a with
    ctr := if 0 < a.impressions then a.clicks / a.impressions * 100 else 0
    conversionRate := if 0 < a.clicks then a.orders / a.clicks * 100 else 0
    roas := if 0 < a.spend then a.sales / a.spend else 0 }

/-- Derived metrics of a group row, plus its per-ad list derived and sorted
by spend descending (`(a, b) => b.spend - a.spend`). -/
def finalizeAggRow (row : AggregatedRow) : AggregatedRow :=
  { row with
    ctr := if 0 < row.impressions then row.clicks / row.impressions * 100 else 0
    conversionRate := if 0 < row.clicks then row.orders / row.clicks * 100 else 0
    cpc := if 0 < row.clicks then row.spend / row.clicks else 0
    roas := if 0 < row.spend then row.sales / row.spend else 0
    ads := jsSort (fun a b => decide (b.spend ≤ a.spend)) (row.ads.map deriveAd) }

/-- The `aggregatedData` memo of the performance dashboard. -/
def aggregatedData (gb : GroupBy) (assets : List BrandAsset)
    (records : List CampaignData) : List AggregatedRow :=
  (perfAccum gb assets records).map finalizeAggRow

/-- The accumulator of the `totals` reduction. -/
structure TotalsAcc where
  impressions : ℚ
  clicks : ℚ
  spend : ℚ
  sales : ℚ
  orders : ℚ
  units : ℚ
  deriving Repr, DecidableEq

/-- The `totals` memo: a reduction over the aggregated rows summing the six
raw metrics. -/
def totals (rows : List AggregatedRow) : TotalsAcc :=
  rows.foldl
    (fun acc g =>
      ⟨acc.impressions + g.impressions, acc.clicks + g.clicks, acc.spend + g.spend,
       acc.sales + g.sales, acc.orders + g.orders, acc.units + g.units⟩)
    ⟨0, 0, 0, 0, 0, 0⟩

/-- `totals.spend > 0 ? totals.sales / totals.spend : 0`. -/
def totalRoas (rows : List AggregatedRow) : ℚ :=
  if 0 < (totals rows).spend then (totals rows).sales / (totals rows).spend else 0

/-! ## Competitive (A/B) view (`ABTestView.tsx`) -/

/-- `const MIN_SPEND_FOR_WINNER = 10`. -/
def MIN_SPEND_FOR_WINNER : ℚ := 10

/-- One creative's accumulated performance within a group (`CreativePerformance`). -/
structure CreativePerformance where
  creativeName : String
  videoAssetId : String
  impressions : ℚ
  clicks : ℚ
  spend : ℚ
  sales : ℚ
  orders : ℚ
  ctr : ℚ
  conversionRate : ℚ
  roas : ℚ
  isWinner : Bool
  deriving Repr, DecidableEq

/-- One competitive group (`ABTestGroup`).  `matchType` is `none` except for
keyword grouping, where it carries the record's raw match type. -/
structure ABTestGroup where
  target : String
  targetType : String
  matchType : Option String
  creatives : List CreativePerformance
  totalSpend : ℚ
  totalImpressions : ℚ
  deriving Repr, DecidableEq

/-- The five grouping dimensions of the A/B view. -/
inductive GroupByTarget where
  | adgroup
  | campaign
  | category
  | keyword
  | asin
  deriving Repr, DecidableEq

/-- `[A-Za-z0-9]` (the source class `[A-Z0-9]` under the `/i` flag). -/
def isAlnumChar (c : Char) : Bool :=
  ('A' ≤ c && c ≤ 'Z') || ('a' ≤ c && c ≤ 'z') || ('0' ≤ c && c ≤ '9')

/-- `[A-Z0-9]{10}` with `/i`: succeed when the next ten characters are
alphanumeric, capturing them. -/
def take10Alnum (l : List Char) : Option (List Char) :=
  let pre := l.take 10
  if pre.length = 10 ∧ pre.all isAlnumChar then some pre else none

/-- The optional `"?` of the prefix, greedy with backtracking, followed by
the ten-character capture. -/
def tryQuote : List Char → Option (List Char)
  | c :: rest =>
    if c = '"' then (take10Alnum rest).orElse fun _ => take10Alnum (c :: rest)
    else take10Alnum (c :: rest)
  | [] => take10Alnum []

/-- The optional `[=:]?` of the prefix, greedy with backtracking. -/
def trySep : List Char → Option (List Char)
  | c :: rest =>
    if c = '=' ∨ c = ':' then (tryQuote rest).orElse fun _ => tryQuote (c :: rest)
    else tryQuote (c :: rest)
  | [] => tryQuote []

/-- The literal `asin` under `/i`; returns the remaining characters. -/
def matchAsinLit : List Char → Option (List Char)
  | a :: s :: i :: n :: rest =>
    if a.toLower = 'a' ∧ s.toLower = 's' ∧ i.toLower = 'i' ∧ n.toLower = 'n'
    then some rest else none
  | _ => none

/-- One attempt of `/(?:asin[=:]?"?)?([A-Z0-9]{10})(?:")?/i` at a fixed
position: the optional non-capturing prefix is tried greedily first, the
empty alternative after it (the trailing `(?:")?` never affects the capture). -/
def tryAsinAt (l : List Char) : Option (List Char) :=
  (match matchAsinLit l with
   | some rest => trySep rest
   | none => none).orElse fun _ => take10Alnum l

/-- `String.prototype.match` without `/g`: the leftmost position where the
pattern matches, scanning left to right. -/
def firstAsinMatch : List Char → Option (List Char)
  | [] => none
  | c :: rest => (tryAsinAt (c :: rest)).orElse fun _ => firstAsinMatch rest

/-- Leftmost match of the fallback pattern `/([A-Z0-9]{10})/i` on
`productTargetingId`. -/
def firstAlnum10 : List Char → Option (List Char)
  | [] => none
  | c :: rest => (take10Alnum (c :: rest)).orElse fun _ => firstAlnum10 rest

/-- Capture normalised by `.toUpperCase()`. -/
def captureToUpper (cs : List Char) : String :=
  String.mk (cs.map Char.toUpper)

/-- The ASIN resolution of one record: match the expression when truthy,
fall back to scanning `productTargetingId` when truthy, else `null`. -/
def extractAsin (r : CampaignData) : Option String :=
  let fromExpr : Option String :=
    if r.productTargetingExpression ≠ ""
    then (firstAsinMatch r.productTargetingExpression.data).map captureToUpper
    else none
  match fromExpr with
  | some a => some a
  | none =>
    if r.productTargetingId ≠ ""
    then (firstAlnum10 r.productTargetingId.data).map captureToUpper
    else none

/-- The name of a target type as used in the group key string. -/
def targetTypeName (gb : GroupByTarget) : String :=
  match gb with
  | .adgroup => "adgroup"
  | .campaign => "campaign"
  | .category => "category"
  | .keyword => "keyword"
  | .asin => "asin"

/-- Target resolution of one record (the if/else chain of `abTestGroups`):
`some (targetType, target, matchType)` or `none` when the record is skipped. -/
def resolveTarget (gb : GroupByTarget) (assets : List BrandAsset) (r : CampaignData) :
    Option (String × String × Option String) :=
  match gb with
  | .campaign => if r.campaignName ≠ "" then some ("campaign", r.campaignName, none) else none
  | .adgroup => if r.adGroupName ≠ "" then some ("adgroup", r.adGroupName, none) else none
  | .category =>
    some ("category",
      (match assetLookup assets r.videoAssetIds with
       | some a => if a.category = "" then "Uncategorized" else a.category
       | none => "Uncategorized"), none)
  | .keyword =>
    if r.keywordText ≠ "" then some ("keyword", r.keywordText, some r.matchType) else none
  | .asin =>
    match extractAsin r with
    | some a => some ("asin", a, none)
    | none => none

/-- `` `${targetType}:${target}:${matchType || ''}` ``. -/
def keyStr (tt tgt : String) (mt : Option String) : String :=
  tt ++ ":" ++ tgt ++ ":" ++ mt.getD ""

/-- The group key a group answers to (its stored fields rebuilt into the map
key it was inserted under). -/
def groupKeyOf (g : ABTestGroup) : String :=
  keyStr g.targetType g.target g.matchType

/-- The map key of a record, `none` when the record is skipped (also by the
`if (!target) return` guard). -/
def recordKey (gb : GroupByTarget) (assets : List BrandAsset) (r : CampaignData) :
    Option String :=
  match resolveTarget gb assets r with
  | some (tt, tgt, mt) => if tgt = "" then none else some (keyStr tt tgt mt)
  | none => none

/-- `asset?.creativeName || campaign.videoAssetIds`. -/
def creativeNameFor (assets : List BrandAsset) (r : CampaignData) : String :=
  match assetLookup assets r.videoAssetIds with
  | some a => if a.creativeName = "" then r.videoAssetIds else a.creativeName
  | none => r.videoAssetIds

/-- The creation literal of a creative entry (all metrics zero, not a winner). -/
def freshCreative (name id : String) : CreativePerformance :=
  ⟨name, id, 0, 0, 0, 0, 0, 0, 0, 0, false⟩

/-- Accumulating one record's metrics onto a creative entry. -/
def bumpCreative (c : CreativePerformance) (r : CampaignData) : CreativePerformance :=
  { c with
    impressions := c.impressions + r.impressions
    clicks := c.clicks + r.clicks
    spend := c.spend + r.spend
    sales := c.sales + r.sales
    orders := c.orders + r.orders }

/-- Find-or-create on a group's creative list, keyed by `videoAssetIds`. -/
def upsertCreative (r : CampaignData) (name : String) :
    List CreativePerformance → List CreativePerformance
  | [] => [bumpCreative (freshCreative name r.videoAssetIds) r]
  | c :: rest =>
    if c.videoAssetId = r.videoAssetIds
    then bumpCreative c r :: rest
    else c :: upsertCreative r name rest

/-- One record folded into one group: its creative entry and the group
totals are updated. -/
def addRecordToGroup (assets : List BrandAsset) (r : CampaignData) (g : ABTestGroup) :
    ABTestGroup :=
  { g with
    creatives := upsertCreative r (creativeNameFor assets r) g.creatives
    totalSpend := g.totalSpend + r.spend
    totalImpressions := g.totalImpressions + r.impressions }

/-- Find-or-create on the insertion-ordered group list (the `groups` map). -/
def upsertGroup (assets : List BrandAsset) (r : CampaignData)
    (tt tgt : String) (mt : Option String) : List ABTestGroup → List ABTestGroup
  | [] => [addRecordToGroup assets r ⟨tgt, tt, mt, [], 0, 0⟩]
  | g :: rest =>
    if groupKeyOf g = keyStr tt tgt mt
    then addRecordToGroup assets r g :: rest
    else g :: upsertGroup assets r tt tgt mt rest

/-- One iteration of the `campaignData.forEach` accumulation. -/
def abStep (gb : GroupByTarget) (assets : List BrandAsset)
    (groups : List ABTestGroup) (r : CampaignData) : List ABTestGroup :=
  match resolveTarget gb assets r with
  | none => groups
  | some (tt, tgt, mt) => if tgt = "" then groups else upsertGroup assets r tt tgt mt groups

/-- The accumulation pass of `abTestGroups` (before derived metrics,
winner marking and sorting). -/
def accumABGroups (gb : GroupByTarget) (assets : List BrandAsset)
    (records : List CampaignData) : List ABTestGroup :=
  records.foldl (abStep gb assets) []

/-- Derived metrics of one creative. -/
def deriveCreative (c : CreativePerformance) : CreativePerformance :=
  { c with
    ctr := if 0 < c.impressions then c.clicks / c.impressions * 100 else 0
    conversionRate := if 0 < c.clicks then c.orders / c.clicks * 100 else 0
    roas := if 0 < c.spend then c.sales / c.spend else 0 }

/-- The winner-tracking loop: `bestRoas` starts at `-1`, `winnerId` at
`null`, and a creative takes the lead when it clears the spend threshold and
strictly beats the running best roas. -/
def winnerScan : List CreativePerformance → ℚ → Option String → Option String
  | [], _, wid => wid
  | c :: rest, best, wid =>
    if MIN_SPEND_FOR_WINNER ≤ c.spend ∧ best < c.roas
    then winnerScan rest c.roas (some c.videoAssetId)
    else winnerScan rest best wid

/-- `group.creatives.find(c => c.videoAssetId === winnerId)` followed by the
in-place `winner.isWinner = true`: only the first entry with the id is marked. -/
def markFirst (i : String) : List CreativePerformance → List CreativePerformance
  | [] => []
  | c :: rest =>
    if c.videoAssetId = i then { c with isWinner := true } :: rest else c :: markFirst i rest

/-- The per-group finalisation pass: derive metrics, determine and mark the
winner (the `if (winnerId && group.creatives.length > 1)` guard models JS
truthiness of the id string), then sort creatives by roas descending. -/
def finalizeABGroup (g : ABTestGroup) : ABTestGroup :=
  let ds := g.creatives.map deriveCreative
  let marked :=
    match winnerScan ds (-1) none with
    | some i => if i ≠ "" ∧ 1 < ds.length then markFirst i ds else ds
    | none => ds
  { g with creatives := jsSort (fun a b => decide (b.roas ≤ a.roas)) marked }

/-- The `abTestGroups` memo: accumulate, then finalise every group. -/
def abTestGroups (gb : GroupByTarget) (assets : List BrandAsset)
    (records : List CampaignData) : List ABTestGroup :=
  (accumABGroups gb assets records).map finalizeABGroup

/-! ## Report parser (`parseExcel.ts`)

A workbook is modelled as named sheets of cell grids (rows of strings, a
missing cell being `""`).  `XLSX.utils.sheet_to_json(sheet)` is modelled by
pairing body cells with the first-row headers, omitting blank cells, and
`sheet_to_json(sheet, { header: 1 })` is the grid itself. -/

/-- A workbook: named sheets in file order, each a grid of cells. -/
def Workbook := List (String × List (List String))

/-- A parsed spreadsheet row object: header/value pairs. -/
def RowObj := List (String × String)

/-- `findSheet`: first sheet whose name matches case-insensitively. -/
def findSheet (wb : Workbook) (target : String) : Option (List (List String)) :=
  (wb.find? fun s => s.1.toLower = target.toLower).map (·.2)

/-- `XLSX.utils.sheet_to_json(sheet)`: header row to keys, blank cells omitted. -/
def sheetToObjects (grid : List (List String)) : List RowObj :=
  match grid with
  | [] => []
  | headers :: body => body.map fun row => (headers.zip row).filter fun kv => kv.2 ≠ ""

/-- The `lowerKeys` map of `getRowValue`: the last object key with the given
lower-cased form wins (`reduce` overwrites earlier entries). -/
def lowerKeyLookup (row : RowObj) (key : String) : Option String :=
  row.foldl (fun acc kv => if kv.1.toLower = key.toLower then some kv.1 else acc) none

/-- Exact-key access on the row object (object keys are unique). -/
def rowGet (row : RowObj) (key : String) : Option String :=
  (row.find? fun kv => kv.1 = key).map (·.2)

/-- `getRowValue`: first candidate key (case-insensitive) whose value is
non-empty, returned trimmed; otherwise the next candidate; default `''`. -/
def getRowValue (row : RowObj) : List String → String
  | [] => ""
  | k :: rest =>
    match lowerKeyLookup row k with
    | some actual =>
      match rowGet row actual with
      | some v => if v ≠ "" then v.trim else getRowValue row rest
      | none => getRowValue row rest
    | none => getRowValue row rest

/-- Decimal-literal parsing: an optional sign, then digits with at most one
point.  This models `Number(val)` on the plain decimal payloads of the
report's numeric cells; forms it cannot read (exponents, hex, `Infinity`)
fall to `none` and hence, via `|| 0`, to zero — no claim depends on the
numeric value of such cells. -/
def parseDecimal (s : String) : Option ℚ :=
  let (sgn, body) :=
    if s.startsWith "-" then ((-1 : ℚ), s.drop 1)
    else if s.startsWith "+" then ((1 : ℚ), s.drop 1)
    else ((1 : ℚ), s)
  let digitsVal : List Char → Option ℕ := fun cs =>
    if cs.all (fun c => c.isDigit)
    then some (cs.foldl (fun n c => 10 * n + (c.toNat - 48)) 0)
    else none
  match body.splitOn "." with
  | [ip] => if ip = "" then none else (digitsVal ip.data).map fun n => sgn * n
  | [ip, fp] =>
    if ip = "" ∧ fp = "" then none
    else
      match digitsVal ip.data, digitsVal fp.data with
      | some n, some f => some (sgn * (n + (f : ℚ) / (10 ^ fp.length)))
      | _, _ => none
  | _ => none

/-- `getRowNumber`: `Number(val) || 0`. -/
def getRowNumber (row : RowObj) (keys : List String) : ℚ :=
  (parseDecimal (getRowValue row keys)).getD 0

/-- `String(row[i] || '').trim()` on a positional row. -/
def cellAt (row : List String) (i : ℕ) : String :=
  (row.getD i "").trim

/-- The five accepted asset-type literals. -/
def validAssetTypes : List String :=
  ["Video", "Custom Image", "Other Image", "Brand Logo", "Product Image"]

/-- Rows after the header row whose first cell is the literal `Asset Type`;
`none` when no header row is found. -/
def rowsAfterHeader : List (List String) → Option (List (List String))
  | [] => none
  | row :: rest =>
    if row.headD "" = "Asset Type" then some rest else rowsAfterHeader rest

/-- One asset-sheet data row: fixed positional columns, accepted only with a
non-empty id and a known type; otherwise skipped silently. -/
def parseAssetRow (assets : List BrandAsset) (row : List String) : List BrandAsset :=
  if row.headD "" = "" then assets
  else
    let assetType := cellAt row 0
    let assetId := cellAt row 2
    let assetName := cellAt row 3
    let assetUrl := cellAt row 4
    if assetId ≠ "" ∧ assetType ∈ validAssetTypes
    then assets ++ [⟨assetType, assetId, assetName, assetUrl, "", ""⟩]
    else assets

/-- `parseBrandAssets`: locate the sheet (absence is silent), locate the
header row (absence yields a warning), then scan the data rows. -/
def parseBrandAssets (wb : Workbook) : List BrandAsset × List String :=
  match findSheet wb "Brand Assets Data (Read-only)" with
  | none => ([], [])
  | some grid =>
    match rowsAfterHeader grid with
    | none => ([], ["Could not find header row in Brand Assets Data sheet"])
    | some rows => (rows.foldl parseAssetRow [], [])

/-- One performance row: accepted only when the video-asset-id field
resolves (across both column spellings) to a non-empty value. -/
def parseCampaignRow (campaigns : List CampaignData) (row : RowObj) : List CampaignData :=
  let videoAssetIds := getRowValue row ["Video Asset IDs", "Video Media IDs"]
  if videoAssetIds = "" then campaigns
  else
    campaigns ++
      [{ campaignId := getRowValue row ["Campaign ID"]
         adGroupId := getRowValue row ["Ad Group ID"]
         adId := getRowValue row ["Ad ID"]
         keywordId := getRowValue row ["Keyword ID"]
         productTargetingId := getRowValue row ["Product Targeting ID"]
         productTargetingExpression := getRowValue row ["Product Targeting Expression"]
         campaignName := getRowValue row ["Campaign Name", "Campaign Name (Informational only)",
           "Campaign name", "Campaign name (Informational only)"]
         adGroupName := getRowValue row ["Ad Group Name", "Ad Group Name (Informational only)",
           "Ad group name", "Ad group name (Informational only)"]
         adName := getRowValue row ["Ad Name", "Ad name", "Campaign Name", "Campaign name"]
         keywordText := getRowValue row ["Keyword Text", "Keyword text"]
         matchType := getRowValue row ["Match Type", "Match type"]
         videoAssetIds := videoAssetIds
         impressions := getRowNumber row ["Impressions"]
         clicks := getRowNumber row ["Clicks"]
         spend := getRowNumber row ["Spend"]
         sales := getRowNumber row ["Sales"]
         orders := getRowNumber row ["Orders"]
         units := getRowNumber row ["Units"]
         ctr := getRowNumber row ["Click-through Rate", "Click-through rate"]
         conversionRate := getRowNumber row ["Conversion Rate", "Conversion rate"]
         acos := getRowNumber row ["ACOS"]
         cpc := getRowNumber row ["CPC"]
         roas := getRowNumber row ["ROAS"] }]

/-- The candidate performance-sheet names, in priority order. -/
def sheetPatterns : List String :=
  ["SB Multi Ad Group Campaigns", "Sponsored Brands Campaigns"]

/-- The sheet loop of `parseCampaignData`: missing sheets are skipped, and
the loop stops after the first sheet that leaves the accumulated list
non-empty, recording it as the source. -/
def campaignsFromSheets (wb : Workbook) :
    List String → List CampaignData → List CampaignData × Option String
  | [], acc => (acc, none)
  | p :: ps, acc =>
    match findSheet wb p with
    | none => campaignsFromSheets wb ps acc
    | some grid =>
      let acc' := (sheetToObjects grid).foldl parseCampaignRow acc
      if acc'.length > 0 then (acc', some p) else campaignsFromSheets wb ps acc'

/-- `parseCampaignData`: campaigns, their source sheet, and the structural
warnings (at most one: either "no video ads" or "missing sheet"). -/
def parseCampaignData (wb : Workbook) :
    List CampaignData × Option String × List String :=
  let res := campaignsFromSheets wb sheetPatterns []
  let hasSBSheet := sheetPatterns.any fun p => (findSheet wb p).isSome
  let warnings :=
    if hasSBSheet ∧ res.1.length = 0 then
      ["Found Sponsored Brands data but no video ads - you may not have any video campaigns running"]
    else if ¬ hasSBSheet then
      ["Missing Sponsored Brands data - make sure to check \"Sponsored Brands data\" and \"Sponsored Brands multi-ad group data\" when downloading"]
    else []
  (res.1, res.2, warnings)

/-- JS `Set`-backed deduplication preserving first-insertion order. -/
def dedupKeep (seen : List String) : List String → List String
  | [] => seen
  | x :: xs => if x ∈ seen then dedupKeep seen xs else dedupKeep (seen ++ [x]) xs

/-- `createPlaceholderAssets`: one placeholder `Video` asset per distinct id
referenced in any `videoAssetIds` (split on commas, trimmed, blanks dropped),
named after the id's last eight characters. -/
def createPlaceholderAssets (campaigns : List CampaignData) : List BrandAsset :=
  let ids := campaigns.foldl
    (fun acc c =>
      if c.videoAssetIds ≠ ""
      then acc ++ ((c.videoAssetIds.splitOn ",").map String.trim).filter (· ≠ "")
      else acc) []
  (dedupKeep [] ids).map fun assetId =>
    ⟨"Video", assetId, "Video " ++ assetId.takeRight 8, "", "", ""⟩

/-- The result shape of `parseExcelFile` after workbook decoding. -/
structure ParsedData where
  brandAssets : List BrandAsset
  campaignData : List CampaignData
  hasBrandAssets : Bool
  hasCampaignData : Bool
  campaignDataSource : Option String
  warnings : List String
  deriving Repr, DecidableEq

/-- The successful branch of `parseExcelFile`: a pure function of the decoded
workbook (assets, campaigns, placeholder synthesis, diagnostics). -/
def parseWorkbook (wb : Workbook) : ParsedData :=
  let (assets₀, assetWarnings) := parseBrandAssets wb
  let (campaigns, source, campaignWarnings) := parseCampaignData wb
  let (assets, placeholderWarnings) :=
    if campaigns.length > 0 ∧ assets₀.length = 0 then
      let ph := createPlaceholderAssets campaigns
      (ph, if ph.length > 0
           then ["Video thumbnails unavailable - check \"Brand assets data\" when downloading for thumbnails"]
           else [])
    else (assets₀, [])
  { brandAssets := assets
    campaignData := campaigns
    hasBrandAssets := assets.length > 0
    hasCampaignData := campaigns.length > 0
    campaignDataSource := source
    warnings := assetWarnings ++ campaignWarnings ++ placeholderWarnings }

/-! ## Label carry-forward on re-upload (`App.tsx`, `handleFileUpload`) -/

/-- The `existingLabels` map: only assets with a truthy label or category are
recorded, later entries overwriting earlier ones on a duplicate id. -/
def lookupLabels : List BrandAsset → String → Option (String × String)
  | [], _ => none
  | a :: rest, id =>
    match lookupLabels rest id with
    | some p => some p
    | none =>
      if (a.creativeName ≠ "" ∨ a.category ≠ "") ∧ a.assetId = id
      then some (a.creativeName, a.category)
      else none

/-- `{...asset, ...existing}` for one freshly parsed asset: any recorded
labels for its id are spread over it. -/
def applyLabelTo (old : List BrandAsset) (a : BrandAsset) : BrandAsset :=
  match lookupLabels old a.assetId with
  | some (cn, cat) => { a with creativeName := cn, category := cat }
  | none => a

/-- `data.brandAssets.map(asset => {...asset, ...existing})`: the new asset
set wholesale, with recorded labels spread over matching ids. -/
def applyExistingLabels (old new : List BrandAsset) : List BrandAsset :=
  new.map (applyLabelTo old)

/-! ## Generic list lemmas for the accumulator model -/

theorem stableInsert_perm (le : α → α → Bool) (x : α) :
    ∀ l : List α, (stableInsert le x l).Perm (x :: l)
  | [] => List.Perm.refl _
  | y :: ys => by
    by_cases h : le x y
    · simp [stableInsert, h]
    · simp only [stableInsert, if_neg h]
      exact ((stableInsert_perm le x ys).cons y).trans (List.Perm.swap x y ys)

theorem jsSort_perm (le : α → α → Bool) :
    ∀ l : List α, (jsSort le l).Perm l
  | [] => List.Perm.refl _
  | x :: xs =>
    (stableInsert_perm le x (jsSort le xs)).trans ((jsSort_perm le xs).cons x)

theorem mem_jsSort {le : α → α → Bool} {l : List α} {a : α} :
    a ∈ jsSort le l ↔ a ∈ l :=
  (jsSort_perm le l).mem_iff

theorem find?_ext {p q : α → Bool} :
    ∀ l : List α, (∀ x ∈ l, p x = q x) → l.find? p = l.find? q
  | [], _ => rfl
  | x :: xs, h => by
    have hx := h x (List.mem_cons_self x xs)
    by_cases hp : p x
    · simp [List.find?, hp, hx ▸ hp]
    · have hq : q x = false := by
        cases hqv : q x
        · rfl
        · exact absurd (hx.trans hqv) hp
      rw [Bool.not_eq_true] at hp
      simp only [List.find?, hp, hq]
      exact find?_ext xs fun y hy => h y (List.mem_cons_of_mem x hy)

/-- Sum of a rational-valued projection over a list. -/
def sumOf (f : α → ℚ) (l : List α) : ℚ :=
  (l.map f).sum

theorem sumOf_nil (f : α → ℚ) : sumOf f [] = 0 := rfl

theorem sumOf_cons (f : α → ℚ) (x : α) (l : List α) :
    sumOf f (x :: l) = f x + sumOf f l := by
  simp [sumOf]

theorem sumOf_append (f : α → ℚ) (l₁ l₂ : List α) :
    sumOf f (l₁ ++ l₂) = sumOf f l₁ + sumOf f l₂ := by
  simp [sumOf]

theorem sumOf_map_of_eq {f : β → ℚ} {g : α → β} {h : α → ℚ}
    (hfg : ∀ a, f (g a) = h a) : ∀ l : List α, sumOf f (l.map g) = sumOf h l
  | [] => rfl
  | x :: xs => by
    simp only [List.map_cons, sumOf_cons, hfg, sumOf_map_of_eq hfg xs]

/-! ## C2: the grand totals are sums of record metrics -/

theorem upsertAggRow_sumOf (gb : GroupBy) (assets : List BrandAsset)
    (f : AggregatedRow → ℚ) (rf : CampaignData → ℚ)
    (hbump : ∀ row r, f (bumpAggRow row r) = f row + rf r)
    (hnew : ∀ k c, f (newAggRow k c) = 0) (r : CampaignData) :
    ∀ rows, sumOf f (upsertAggRow gb assets r rows) = sumOf f rows + rf r
  | [] => by simp [upsertAggRow, sumOf_cons, sumOf_nil, hbump, hnew]
  | row :: rest => by
    by_cases h : row.name = perfKey gb assets r
    · simp only [upsertAggRow, if_pos h, sumOf_cons, hbump]
      ring
    · simp only [upsertAggRow, if_neg h, sumOf_cons,
        upsertAggRow_sumOf gb assets f rf hbump hnew r rest]
      ring

theorem perfAccum_sumOf_aux (gb : GroupBy) (assets : List BrandAsset)
    (f : AggregatedRow → ℚ) (rf : CampaignData → ℚ)
    (hbump : ∀ row r, f (bumpAggRow row r) = f row + rf r)
    (hnew : ∀ k c, f (newAggRow k c) = 0) :
    ∀ (records : List CampaignData) (init : List AggregatedRow),
      sumOf f (records.foldl (fun rows r => upsertAggRow gb assets r rows) init) =
        sumOf f init + sumOf rf records
  | [], init => by simp [sumOf_nil]
  | r :: rs, init => by
    simp only [List.foldl_cons, perfAccum_sumOf_aux gb assets f rf hbump hnew rs,
      upsertAggRow_sumOf gb assets f rf hbump hnew r init, sumOf_cons]
    ring

theorem perfAccum_sumOf (gb : GroupBy) (assets : List BrandAsset)
    (f : AggregatedRow → ℚ) (rf : CampaignData → ℚ)
    (hbump : ∀ row r, f (bumpAggRow row r) = f row + rf r)
    (hnew : ∀ k c, f (newAggRow k c) = 0) (records : List CampaignData) :
    sumOf f (perfAccum gb assets records) = sumOf rf records := by
  have := perfAccum_sumOf_aux gb assets f rf hbump hnew records []
  simpa [perfAccum, sumOf_nil] using this

theorem totals_eq_sumOf :
    ∀ rows : List AggregatedRow,
      totals rows =
        ⟨sumOf (·.impressions) rows, sumOf (·.clicks) rows, sumOf (·.spend) rows,
         sumOf (·.sales) rows, sumOf (·.orders) rows, sumOf (·.units) rows⟩ := by
  have aux : ∀ (rows : List AggregatedRow) (acc : TotalsAcc),
      rows.foldl
        (fun acc g =>
          ⟨acc.impressions + g.impressions, acc.clicks + g.clicks, acc.spend + g.spend,
           acc.sales + g.sales, acc.orders + g.orders, acc.units + g.units⟩) acc =
      ⟨acc.impressions + sumOf (·.impressions) rows, acc.clicks + sumOf (·.clicks) rows,
       acc.spend + sumOf (·.spend) rows, acc.sales + sumOf (·.sales) rows,
       acc.orders + sumOf (·.orders) rows, acc.units + sumOf (·.units) rows⟩ := by
    intro rows
    induction rows with
    | nil => intro acc; simp [sumOf_nil]
    | cons g rest ih =>
      intro acc
      simp only [List.foldl_cons, ih, sumOf_cons, TotalsAcc.mk.injEq]
      refine ⟨by ring, by ring, by ring, by ring, by ring, by ring⟩
  intro rows
  have := aux rows ⟨0, 0, 0, 0, 0, 0⟩
  simpa [totals] using this

theorem aggregatedData_sumOf (gb : GroupBy) (assets : List BrandAsset)
    (records : List CampaignData)
    (f : AggregatedRow → ℚ) (rf : CampaignData → ℚ)
    (hfin : ∀ row, f (finalizeAggRow row) = f row)
    (hbump : ∀ row r, f (bumpAggRow row r) = f row + rf r)
    (hnew : ∀ k c, f (newAggRow k c) = 0) :
    sumOf f (aggregatedData gb assets records) = sumOf rf records := by
  unfold aggregatedData
  rw [sumOf_map_of_eq hfin]
  exact perfAccum_sumOf gb assets f rf hbump hnew records

/-- C2: the grand total of the performance view is the reduction summing the
six raw metrics over all groups — which equals their sums over all underlying
records — and the overall roas is `sum(sales)/sum(spend)` (`0` on zero total
spend), not an average of per-group roas values. -/
theorem perf_grand_totals (gb : GroupBy) (assets : List BrandAsset)
    (records : List CampaignData) :
    totals (aggregatedData gb assets records) =
      ⟨sumOf (·.impressions) records, sumOf (·.clicks) records, sumOf (·.spend) records,
       sumOf (·.sales) records, sumOf (·.orders) records, sumOf (·.units) records⟩ ∧
    totalRoas (aggregatedData gb assets records) =
      (if 0 < sumOf (·.spend) records
       then sumOf (·.sales) records / sumOf (·.spend) records else 0) := by
  have h1 := aggregatedData_sumOf gb assets records (·.impressions) (·.impressions)
    (fun row => by simp [finalizeAggRow]) (fun row r => by simp [bumpAggRow]) (fun k c => rfl)
  have h2 := aggregatedData_sumOf gb assets records (·.clicks) (·.clicks)
    (fun row => by simp [finalizeAggRow]) (fun row r => by simp [bumpAggRow]) (fun k c => rfl)
  have h3 := aggregatedData_sumOf gb assets records (·.spend) (·.spend)
    (fun row => by simp [finalizeAggRow]) (fun row r => by simp [bumpAggRow]) (fun k c => rfl)
  have h4 := aggregatedData_sumOf gb assets records (·.sales) (·.sales)
    (fun row => by simp [finalizeAggRow]) (fun row r => by simp [bumpAggRow]) (fun k c => rfl)
  have h5 := aggregatedData_sumOf gb assets records (·.orders) (·.orders)
    (fun row => by simp [finalizeAggRow]) (fun row r => by simp [bumpAggRow]) (fun k c => rfl)
  have h6 := aggregatedData_sumOf gb assets records (·.units) (·.units)
    (fun row => by simp [finalizeAggRow]) (fun row r => by simp [bumpAggRow]) (fun k c => rfl)
  have htot := totals_eq_sumOf (aggregatedData gb assets records)
  constructor
  · rw [htot, h1, h2, h3, h4, h5, h6]
  · unfold totalRoas
    rw [htot]
    simp only [h3, h4]

/-! ## C3: derived ratio metrics of groups and per-ad entries -/

/-- The derived-ratio contract of one aggregated row and its per-ad entries:
every ratio is recomputed from the accumulated sums with a zero-denominator
guard (per-ad entries carry `ctr`, `conversionRate` and `roas`). -/
def DerivedRatiosSpec (g : AggregatedRow) : Prop :=
  g.ctr = (if 0 < g.impressions then g.clicks / g.impressions * 100 else 0) ∧
  g.conversionRate = (if 0 < g.clicks then g.orders / g.clicks * 100 else 0) ∧
  g.cpc = (if 0 < g.clicks then g.spend / g.clicks else 0) ∧
  g.roas = (if 0 < g.spend then g.sales / g.spend else 0) ∧
  ∀ ad ∈ g.ads,
    ad.ctr = (if 0 < ad.impressions then ad.clicks / ad.impressions * 100 else 0) ∧
    ad.conversionRate = (if 0 < ad.clicks then ad.orders / ad.clicks * 100 else 0) ∧
    ad.roas = (if 0 < ad.spend then ad.sales / ad.spend else 0)

/-- Zeroing the platform-precomputed ratio columns of a record. -/
def scrubPlatformRatios (r : CampaignData) : CampaignData :=
  { r with ctr := 0, conversionRate := 0, acos := 0, cpc := 0, roas := 0 }

theorem perfKey_scrub (gb : GroupBy) (assets : List BrandAsset) (r : CampaignData) :
    perfKey gb assets (scrubPlatformRatios r) = perfKey gb assets r := by
  cases gb <;> simp [perfKey, creativeLabelFor, categoryFor, scrubPlatformRatios]

theorem categoryFor_scrub (assets : List BrandAsset) (r : CampaignData) :
    categoryFor assets (scrubPlatformRatios r) = categoryFor assets r := by
  simp [categoryFor, scrubPlatformRatios]

@[simp] theorem scrub_adName (r : CampaignData) :
    (scrubPlatformRatios r).adName = r.adName := rfl

@[simp] theorem scrub_campaignName (r : CampaignData) :
    (scrubPlatformRatios r).campaignName = r.campaignName := rfl

@[simp] theorem scrub_adGroupName (r : CampaignData) :
    (scrubPlatformRatios r).adGroupName = r.adGroupName := rfl

@[simp] theorem scrub_videoAssetIds (r : CampaignData) :
    (scrubPlatformRatios r).videoAssetIds = r.videoAssetIds := rfl

theorem bumpAdDetail_scrub (a : AdDetail) (r : CampaignData) :
    bumpAdDetail a (scrubPlatformRatios r) = bumpAdDetail a r := rfl

theorem newAdDetail_scrub (r : CampaignData) :
    newAdDetail (scrubPlatformRatios r) = newAdDetail r := rfl

theorem upsertAd_scrub (r : CampaignData) :
    ∀ ads, upsertAd (scrubPlatformRatios r) ads = upsertAd r ads
  | [] => by rw [upsertAd, upsertAd, newAdDetail_scrub]
  | a :: rest => by
    rw [upsertAd, upsertAd, scrub_adName, scrub_campaignName, scrub_adGroupName,
      bumpAdDetail_scrub, upsertAd_scrub r rest]

theorem updateAds_scrub (ads : List AdDetail) (r : CampaignData) :
    updateAds ads (scrubPlatformRatios r) = updateAds ads r := by
  rw [updateAds, updateAds, scrub_adName, upsertAd_scrub]

theorem bumpAggRow_scrub (row : AggregatedRow) (r : CampaignData) :
    bumpAggRow row (scrubPlatformRatios r) = bumpAggRow row r := by
  rw [bumpAggRow, bumpAggRow, updateAds_scrub]
  simp [scrubPlatformRatios]

theorem upsertAggRow_scrub (gb : GroupBy) (assets : List BrandAsset) (r : CampaignData) :
    ∀ rows, upsertAggRow gb assets (scrubPlatformRatios r) rows = upsertAggRow gb assets r rows
  | [] => by
    rw [upsertAggRow, upsertAggRow, perfKey_scrub, categoryFor_scrub, bumpAggRow_scrub]
  | row :: rest => by
    rw [upsertAggRow, upsertAggRow, perfKey_scrub, bumpAggRow_scrub,
      upsertAggRow_scrub gb assets r rest]

/-- C3: in the performance view every group row and every per-ad entry gets
its ratio metrics recomputed from the accumulated sums (`ctr`, `conversionRate`,
`cpc` and `roas` with zero-denominator guards; per-ad entries carry the three
ratios they expose), and the aggregation never reads the platform-supplied
ratio columns of the source rows — zeroing them all leaves the output
unchanged. -/
theorem perf_derived_ratios (gb : GroupBy) (assets : List BrandAsset)
    (records : List CampaignData) :
    (∀ g ∈ aggregatedData gb assets records, DerivedRatiosSpec g) ∧
    aggregatedData gb assets (records.map scrubPlatformRatios) =
      aggregatedData gb assets records := by
  constructor
  · intro g hg
    rw [aggregatedData, List.mem_map] at hg
    obtain ⟨row, _, rfl⟩ := hg
    refine ⟨by simp [finalizeAggRow], by simp [finalizeAggRow], by simp [finalizeAggRow],
      by simp [finalizeAggRow], ?_⟩
    intro ad had
    have : ad ∈ (row.ads.map deriveAd) := by
      have hmem : ad ∈ jsSort (fun a b => decide (b.spend ≤ a.spend)) (row.ads.map deriveAd) := by
        simpa [finalizeAggRow] using had
      exact mem_jsSort.mp hmem
    rw [List.mem_map] at this
    obtain ⟨a₀, _, rfl⟩ := this
    exact ⟨by simp [deriveAd], by simp [deriveAd], by simp [deriveAd]⟩
  · unfold aggregatedData perfAccum
    rw [List.foldl_map]
    have : (fun (rows : List AggregatedRow) (r : CampaignData) =>
        upsertAggRow gb assets (scrubPlatformRatios r) rows) =
        fun rows r => upsertAggRow gb assets r rows := by
      funext rows r
      exact upsertAggRow_scrub gb assets r rows
    rw [this]

/-- A record template with empty identifiers and zero metrics, specialised
by the concrete examples below. -/
def rec0 : CampaignData :=
  ⟨"", "", "", "", "", "", "", "", "", "", "", "vid", 0, 0, 0, 0, 0, 0, 0, 0, 0, 0, 0⟩

/-- Witness for C3: the concrete group produced from one ad row satisfies
the derived-ratio contract. -/
theorem perf_derived_ratios_witness :
    DerivedRatiosSpec
      ⟨"Unlabeled", "Uncategorized", 100, 10, 4, 8, 2, 0, 10, 20, 2/5, 2, 1,
       [⟨"Ad1", "", "", 100, 10, 4, 8, 2, 10, 20, 2⟩]⟩ :=
  (perf_derived_ratios .creative []
    [{ rec0 with adName := "Ad1", impressions := 100, clicks := 10, spend := 4,
                 sales := 8, orders := 2 }]).1
    _ (by with_unfolding_all decide)

/-! ## C9: empty ad names feed group totals but never the breakdown list -/

theorem upsertAd_names (r : CampaignData) (hr : r.adName ≠ "") :
    ∀ ads, (∀ a ∈ ads, a.adName ≠ "") → ∀ a ∈ upsertAd r ads, a.adName ≠ ""
  | [], _, a, ha => by
    simp only [upsertAd, List.mem_singleton] at ha
    subst ha
    exact hr
  | b :: rest, h, a, ha => by
    by_cases hb : b.adName = r.adName ∧ b.campaignName = r.campaignName ∧
        b.adGroupName = r.adGroupName
    · rw [upsertAd, if_pos hb] at ha
      rcases List.mem_cons.mp ha with rfl | ha
      · simpa [bumpAdDetail] using h b (List.mem_cons_self b rest)
      · exact h a (List.mem_cons_of_mem b ha)
    · rw [upsertAd, if_neg hb] at ha
      rcases List.mem_cons.mp ha with rfl | ha
      · exact h a (List.mem_cons_self a rest)
      · exact upsertAd_names r hr rest (fun x hx => h x (List.mem_cons_of_mem b hx)) a ha

theorem updateAds_names (ads : List AdDetail) (r : CampaignData)
    (h : ∀ a ∈ ads, a.adName ≠ "") : ∀ a ∈ updateAds ads r, a.adName ≠ "" := by
  unfold updateAds
  by_cases hr : r.adName = ""
  · simpa [hr] using h
  · simpa [hr] using upsertAd_names r hr ads h

theorem upsertAggRow_names (gb : GroupBy) (assets : List BrandAsset) (r : CampaignData) :
    ∀ rows, (∀ row ∈ rows, ∀ a ∈ row.ads, a.adName ≠ "") →
      ∀ row ∈ upsertAggRow gb assets r rows, ∀ a ∈ row.ads, a.adName ≠ ""
  | [], _, row, hrow => by
    simp only [upsertAggRow, List.mem_singleton] at hrow
    subst hrow
    simpa [bumpAggRow, newAggRow] using updateAds_names [] r (by simp)
  | row₀ :: rest, h, row, hrow => by
    by_cases hk : row₀.name = perfKey gb assets r
    · rw [upsertAggRow, if_pos hk] at hrow
      rcases List.mem_cons.mp hrow with rfl | hrow
      · simpa [bumpAggRow] using
          updateAds_names row₀.ads r (h row₀ (List.mem_cons_self row₀ rest))
      · exact h row (List.mem_cons_of_mem row₀ hrow)
    · rw [upsertAggRow, if_neg hk] at hrow
      rcases List.mem_cons.mp hrow with rfl | hrow
      · exact h row (List.mem_cons_self row rest)
      · exact upsertAggRow_names gb assets r rest
          (fun x hx => h x (List.mem_cons_of_mem row₀ hx)) row hrow

theorem perfAccum_names (gb : GroupBy) (assets : List BrandAsset) :
    ∀ (records : List CampaignData) (init : List AggregatedRow),
      (∀ row ∈ init, ∀ a ∈ row.ads, a.adName ≠ "") →
      ∀ row ∈ records.foldl (fun rows r => upsertAggRow gb assets r rows) init,
        ∀ a ∈ row.ads, a.adName ≠ ""
  | [], _, h => h
  | r :: rs, init, h =>
    perfAccum_names gb assets rs (upsertAggRow gb assets r init)
      (upsertAggRow_names gb assets r init h)

/-- C9 (implicit): a record with an empty `adName` adds its metrics to
its group's accumulated totals but never enters the per-ad breakdown list:
every breakdown entry of every produced group carries a non-empty ad name,
and on the concrete one-record input with `adName = ""` and `spend = 5` the
group totals 5 spend while its breakdown entries sum to strictly less. -/
theorem perf_empty_adName_excluded :
    (∀ (gb : GroupBy) (assets : List BrandAsset) (records : List CampaignData),
      ∀ g ∈ aggregatedData gb assets records, ∀ ad ∈ g.ads, ad.adName ≠ "") ∧
    (∀ g ∈ aggregatedData .creative [] [{ rec0 with spend := 5 }],
      sumOf (·.spend) g.ads < g.spend) := by
  constructor
  · intro gb assets records g hg ad had
    rw [aggregatedData, List.mem_map] at hg
    obtain ⟨row, hrow, rfl⟩ := hg
    have hinv := perfAccum_names gb assets records [] (by simp) row hrow
    have : ad ∈ row.ads.map deriveAd := by
      have hmem : ad ∈ jsSort (fun a b => decide (b.spend ≤ a.spend)) (row.ads.map deriveAd) := by
        simpa [finalizeAggRow] using had
      exact mem_jsSort.mp hmem
    rw [List.mem_map] at this
    obtain ⟨a₀, ha₀, rfl⟩ := this
    simpa [deriveAd] using hinv a₀ ha₀
  · with_unfolding_all decide

/-- Witness for C9: the single breakdown entry of the concrete one-ad input
has a non-empty ad name. -/
theorem perf_empty_adName_excluded_witness :
    (⟨"Ad1", "", "", 0, 0, 4, 0, 0, 0, 0, 0⟩ : AdDetail).adName ≠ "" :=
  perf_empty_adName_excluded.1 .creative [] [{ rec0 with adName := "Ad1", spend := 4 }]
    ⟨"Unlabeled", "Uncategorized", 0, 0, 4, 0, 0, 0, 0, 0, 0, 0, 1,
     [⟨"Ad1", "", "", 0, 0, 4, 0, 0, 0, 0, 0⟩]⟩
    (by with_unfolding_all decide) _ (by with_unfolding_all decide)

/-! ## C1/C10: winner determination in the competitive view -/

theorem winnerScan_stable :
    ∀ (l : List CreativePerformance) (b : ℚ) (w : Option String),
      (∀ c ∈ l, MIN_SPEND_FOR_WINNER ≤ c.spend → c.roas ≤ b) → winnerScan l b w = w
  | [], _, _, _ => rfl
  | c :: rest, b, w, h => by
    have hc : ¬ (MIN_SPEND_FOR_WINNER ≤ c.spend ∧ b < c.roas) := by
      rintro ⟨h1, h2⟩
      exact absurd h2 (not_lt.mpr (h c (List.mem_cons_self c rest) h1))
    simp only [winnerScan, if_neg hc]
    exact winnerScan_stable rest b w fun x hx => h x (List.mem_cons_of_mem c hx)

theorem winnerScan_spec (l : List CreativePerformance) :
    ∀ (b : ℚ) (w : Option String),
      (∃ c ∈ l, MIN_SPEND_FOR_WINNER ≤ c.spend ∧ b < c.roas) →
      ∃ c₀ ∈ l, MIN_SPEND_FOR_WINNER ≤ c₀.spend ∧ b < c₀.roas ∧
        winnerScan l b w = some c₀.videoAssetId ∧
        (∀ c ∈ l, MIN_SPEND_FOR_WINNER ≤ c.spend → b < c.roas → c.roas ≤ c₀.roas) ∧
        l.find? (fun c => decide (MIN_SPEND_FOR_WINNER ≤ c.spend) && decide (b < c.roas) &&
          decide (c₀.roas ≤ c.roas)) = some c₀ := by
  induction l with
  | nil => rintro b w ⟨c, hc, _⟩; cases hc
  | cons c rest ih =>
    intro b w hex
    by_cases hc : MIN_SPEND_FOR_WINNER ≤ c.spend ∧ b < c.roas
    · simp only [winnerScan, if_pos hc]
      by_cases hbetter : ∃ x ∈ rest, MIN_SPEND_FOR_WINNER ≤ x.spend ∧ c.roas < x.roas
      · obtain ⟨c₀, hc₀, hq₀, hlt₀, hscan, hmax, hfind⟩ :=
          ih c.roas (some c.videoAssetId) hbetter
        refine ⟨c₀, List.mem_cons_of_mem c hc₀, hq₀, lt_trans hc.2 hlt₀, hscan, ?_, ?_⟩
        · intro x hx hqx hbx
          rcases List.mem_cons.mp hx with rfl | hx
          · exact le_of_lt hlt₀
          · by_cases hcx : c.roas < x.roas
            · exact hmax x hx hqx hcx
            · exact le_trans (not_lt.mp hcx) (le_of_lt hlt₀)
        · have hhead : (decide (MIN_SPEND_FOR_WINNER ≤ c.spend) && decide (b < c.roas) &&
              decide (c₀.roas ≤ c.roas)) = false := by
            simp [not_le.mpr hlt₀]
          simp only [List.find?, hhead]
          refine (find?_ext rest ?_).trans hfind
          intro x hx
          by_cases hle : c₀.roas ≤ x.roas
          · have h1 : b < x.roas := lt_of_lt_of_le (lt_trans hc.2 hlt₀) hle
            have h2 : c.roas < x.roas := lt_of_lt_of_le hlt₀ hle
            simp [h1, h2, hle]
          · simp [hle]
      · push_neg at hbetter
        have hscan :
            winnerScan rest c.roas (some c.videoAssetId) = some c.videoAssetId :=
          winnerScan_stable rest c.roas (some c.videoAssetId) hbetter
        refine ⟨c, List.mem_cons_self c rest, hc.1, hc.2, hscan, ?_, ?_⟩
        · intro x hx hqx _
          rcases List.mem_cons.mp hx with rfl | hx
          · exact le_refl _
          · exact hbetter x hx hqx
        · have hhead : (decide (MIN_SPEND_FOR_WINNER ≤ c.spend) && decide (b < c.roas) &&
              decide (c.roas ≤ c.roas)) = true := by
            simp [hc.1, hc.2]
          simp only [List.find?, hhead]
    · simp only [winnerScan, if_neg hc]
      have hex' : ∃ x ∈ rest, MIN_SPEND_FOR_WINNER ≤ x.spend ∧ b < x.roas := by
        obtain ⟨x, hx, hqx⟩ := hex
        rcases List.mem_cons.mp hx with rfl | hx
        · exact absurd hqx hc
        · exact ⟨x, hx, hqx⟩
      obtain ⟨c₀, hc₀, hq₀, hlt₀, hscan, hmax, hfind⟩ := ih b w hex'
      refine ⟨c₀, List.mem_cons_of_mem c hc₀, hq₀, hlt₀, hscan, ?_, ?_⟩
      · intro x hx hqx hbx
        rcases List.mem_cons.mp hx with rfl | hx
        · exact absurd ⟨hqx, hbx⟩ hc
        · exact hmax x hx hqx hbx
      · have hhead : (decide (MIN_SPEND_FOR_WINNER ≤ c.spend) && decide (b < c.roas) &&
            decide (c₀.roas ≤ c.roas)) = false := by
          by_cases h1 : MIN_SPEND_FOR_WINNER ≤ c.spend
          · have h2 : ¬ b < c.roas := fun h2 => hc ⟨h1, h2⟩
            simp [h2]
          · simp [h1]
        simp only [List.find?, hhead]
        exact hfind

theorem markFirst_decomp (i : String) (c₀ : CreativePerformance)
    (hc : c₀.videoAssetId = i) :
    ∀ (l₁ l₂ : List CreativePerformance), (∀ c ∈ l₁, c.videoAssetId ≠ i) →
      markFirst i (l₁ ++ c₀ :: l₂) = l₁ ++ { c₀ with isWinner := true } :: l₂
  | [], l₂, _ => by simp [markFirst, hc]
  | c :: l₁, l₂, h => by
    have hne : ¬ c.videoAssetId = i := h c (List.mem_cons_self c l₁)
    simp only [List.cons_append, markFirst, if_neg hne]
    exact congrArg (c :: ·)
      (markFirst_decomp i c₀ hc l₁ l₂ fun x hx => h x (List.mem_cons_of_mem c hx))

/-- The data-model invariant on performance records fed to the engine: the
parser guarantees a non-empty `videoAssetIds` and the report's `spend` and
`sales` are non-negative currency amounts. -/
def RecOk (r : CampaignData) : Prop :=
  r.videoAssetIds ≠ "" ∧ 0 ≤ r.spend ∧ 0 ≤ r.sales

/-- Invariant of accumulated creative entries: not yet marked, non-negative
accumulated spend and sales, non-empty id. -/
def CreativeOk (c : CreativePerformance) : Prop :=
  c.isWinner = false ∧ 0 ≤ c.spend ∧ 0 ≤ c.sales ∧ c.videoAssetId ≠ ""

/-- Invariant of accumulated groups: creatives carry pairwise distinct ids
(find-or-create keyed by id) and each satisfies `CreativeOk`. -/
def GroupOk (g : ABTestGroup) : Prop :=
  (g.creatives.map (·.videoAssetId)).Nodup ∧ ∀ c ∈ g.creatives, CreativeOk c

theorem upsertCreative_ids_mem (r : CampaignData) (name : String) :
    ∀ l : List CreativePerformance, r.videoAssetIds ∈ l.map (·.videoAssetId) →
      (upsertCreative r name l).map (·.videoAssetId) = l.map (·.videoAssetId)
  | [], h => absurd h (by simp)
  | c :: rest, h => by
    by_cases hid : c.videoAssetId = r.videoAssetIds
    · simp [upsertCreative, hid, bumpCreative]
    · have hrest : r.videoAssetIds ∈ rest.map (·.videoAssetId) := by
        rcases List.mem_cons.mp h with heq | hmem
        · exact absurd heq.symm hid
        · exact hmem
      simp only [upsertCreative, if_neg hid, List.map_cons,
        upsertCreative_ids_mem r name rest hrest]

theorem upsertCreative_ids_not_mem (r : CampaignData) (name : String) :
    ∀ l : List CreativePerformance, r.videoAssetIds ∉ l.map (·.videoAssetId) →
      (upsertCreative r name l).map (·.videoAssetId) =
        l.map (·.videoAssetId) ++ [r.videoAssetIds]
  | [], _ => by simp [upsertCreative, bumpCreative, freshCreative]
  | c :: rest, h => by
    have hid : ¬ c.videoAssetId = r.videoAssetIds :=
      fun heq => h (by simp [List.mem_cons, heq.symm])
    have hrest : r.videoAssetIds ∉ rest.map (·.videoAssetId) :=
      fun hmem => h (List.mem_cons_of_mem _ hmem)
    simp only [upsertCreative, if_neg hid, List.map_cons,
      upsertCreative_ids_not_mem r name rest hrest, List.cons_append]

theorem upsertCreative_nodup (r : CampaignData) (name : String)
    (l : List CreativePerformance) (h : (l.map (·.videoAssetId)).Nodup) :
    ((upsertCreative r name l).map (·.videoAssetId)).Nodup := by
  by_cases hmem : r.videoAssetIds ∈ l.map (·.videoAssetId)
  · rw [upsertCreative_ids_mem r name l hmem]
    exact h
  · rw [upsertCreative_ids_not_mem r name l hmem]
    simp [List.nodup_append, h, hmem]

theorem bumpCreative_ok (c : CreativePerformance) (r : CampaignData)
    (hc : CreativeOk c) (hr : RecOk r) : CreativeOk (bumpCreative c r) := by
  obtain ⟨h1, h2, h3, h4⟩ := hc
  exact ⟨h1, add_nonneg h2 hr.2.1, add_nonneg h3 hr.2.2, h4⟩

theorem upsertCreative_ok (r : CampaignData) (name : String) (hr : RecOk r) :
    ∀ l : List CreativePerformance, (∀ c ∈ l, CreativeOk c) →
      ∀ c ∈ upsertCreative r name l, CreativeOk c
  | [], _, c, hc => by
    simp only [upsertCreative, List.mem_singleton] at hc
    subst hc
    exact bumpCreative_ok _ r ⟨rfl, le_refl 0, le_refl 0, hr.1⟩ hr
  | c₀ :: rest, h, c, hc => by
    by_cases hid : c₀.videoAssetId = r.videoAssetIds
    · rw [upsertCreative, if_pos hid] at hc
      rcases List.mem_cons.mp hc with rfl | hc
      · exact bumpCreative_ok c₀ r (h c₀ (List.mem_cons_self c₀ rest)) hr
      · exact h c (List.mem_cons_of_mem c₀ hc)
    · rw [upsertCreative, if_neg hid] at hc
      rcases List.mem_cons.mp hc with rfl | hc
      · exact h c (List.mem_cons_self c rest)
      · exact upsertCreative_ok r name hr rest
          (fun x hx => h x (List.mem_cons_of_mem c₀ hx)) c hc

theorem addRecordToGroup_ok (assets : List BrandAsset) (r : CampaignData)
    (g : ABTestGroup) (hg : GroupOk g) (hr : RecOk r) :
    GroupOk (addRecordToGroup assets r g) :=
  ⟨upsertCreative_nodup r _ g.creatives hg.1,
   upsertCreative_ok r _ hr g.creatives hg.2⟩

theorem upsertGroup_ok (assets : List BrandAsset) (r : CampaignData)
    (tt tgt : String) (mt : Option String) (hr : RecOk r) :
    ∀ gl : List ABTestGroup, (∀ g ∈ gl, GroupOk g) →
      ∀ g ∈ upsertGroup assets r tt tgt mt gl, GroupOk g
  | [], _, g, hg => by
    simp only [upsertGroup, List.mem_singleton] at hg
    subst hg
    exact addRecordToGroup_ok assets r _ ⟨List.nodup_nil, by simp⟩ hr
  | g₀ :: rest, h, g, hg => by
    by_cases hk : groupKeyOf g₀ = keyStr tt tgt mt
    · rw [upsertGroup, if_pos hk] at hg
      rcases List.mem_cons.mp hg with rfl | hg
      · exact addRecordToGroup_ok assets r g₀ (h g₀ (List.mem_cons_self g₀ rest)) hr
      · exact h g (List.mem_cons_of_mem g₀ hg)
    · rw [upsertGroup, if_neg hk] at hg
      rcases List.mem_cons.mp hg with rfl | hg
      · exact h g (List.mem_cons_self g rest)
      · exact upsertGroup_ok assets r tt tgt mt hr rest
          (fun x hx => h x (List.mem_cons_of_mem g₀ hx)) g hg

theorem abStep_ok (gb : GroupByTarget) (assets : List BrandAsset)
    (gl : List ABTestGroup) (r : CampaignData)
    (h : ∀ g ∈ gl, GroupOk g) (hr : RecOk r) :
    ∀ g ∈ abStep gb assets gl r, GroupOk g := by
  unfold abStep
  cases hres : resolveTarget gb assets r with
  | none => exact h
  | some x =>
    obtain ⟨tt, tgt, mt⟩ := x
    by_cases htgt : tgt = ""
    · simpa [htgt] using h
    · simpa [htgt] using upsertGroup_ok assets r tt tgt mt hr gl h

theorem accumABGroups_ok_aux (gb : GroupByTarget) (assets : List BrandAsset) :
    ∀ (records : List CampaignData) (init : List ABTestGroup),
      (∀ r ∈ records, RecOk r) → (∀ g ∈ init, GroupOk g) →
      ∀ g ∈ records.foldl (abStep gb assets) init, GroupOk g
  | [], _, _, h => h
  | r :: rs, init, hrec, h =>
    accumABGroups_ok_aux gb assets rs (abStep gb assets init r)
      (fun x hx => hrec x (List.mem_cons_of_mem r hx))
      (abStep_ok gb assets init r h (hrec r (List.mem_cons_self r rs)))

theorem accumABGroups_ok (gb : GroupByTarget) (assets : List BrandAsset)
    (records : List CampaignData) (hrec : ∀ r ∈ records, RecOk r) :
    ∀ g ∈ accumABGroups gb assets records, GroupOk g :=
  accumABGroups_ok_aux gb assets records [] hrec (by simp)

theorem deriveCreative_roas_nonneg (c : CreativePerformance)
    (hspend : 0 ≤ c.spend) (hsales : 0 ≤ c.sales) : 0 ≤ (deriveCreative c).roas := by
  simp only [deriveCreative]
  split
  · exact div_nonneg hsales hspend
  · exact le_refl 0

theorem finalizeABGroup_creatives (g : ABTestGroup) :
    (finalizeABGroup g).creatives =
      jsSort (fun a b => decide (b.roas ≤ a.roas))
        (match winnerScan (g.creatives.map deriveCreative) (-1) none with
         | some i =>
           if i ≠ "" ∧ 1 < (g.creatives.map deriveCreative).length
           then markFirst i (g.creatives.map deriveCreative)
           else g.creatives.map deriveCreative
         | none => g.creatives.map deriveCreative) := rfl

/-- The winner contract of one accumulated competitive group `g` (its
produced form being `finalizeABGroup g`): no winner without a creative
clearing the spend threshold, no winner in a single-creative group, and
otherwise exactly one winner — the first-encountered threshold-clearing
creative of greatest derived roas. -/
def C1WinnerSpec (g : ABTestGroup) : Prop :=
  ((∀ c ∈ g.creatives.map deriveCreative, ¬ MIN_SPEND_FOR_WINNER ≤ c.spend) →
    ∀ c ∈ (finalizeABGroup g).creatives, c.isWinner = false) ∧
  (g.creatives.length = 1 → ∀ c ∈ (finalizeABGroup g).creatives, c.isWinner = false) ∧
  ((∃ c ∈ g.creatives.map deriveCreative, MIN_SPEND_FOR_WINNER ≤ c.spend) →
    2 ≤ g.creatives.length →
    ∃ w ∈ g.creatives.map deriveCreative, MIN_SPEND_FOR_WINNER ≤ w.spend ∧
      (∀ c ∈ g.creatives.map deriveCreative,
        MIN_SPEND_FOR_WINNER ≤ c.spend → c.roas ≤ w.roas) ∧
      (g.creatives.map deriveCreative).find?
        (fun c => decide (MIN_SPEND_FOR_WINNER ≤ c.spend) && decide (w.roas ≤ c.roas)) =
        some w ∧
      { w with isWinner := true } ∈ (finalizeABGroup g).creatives ∧
      ∀ c ∈ (finalizeABGroup g).creatives, c.isWinner = true →
        c = { w with isWinner := true })

/-- C1: winner determination of `abTestGroups` on every group accumulated
from records satisfying the data-model invariant (non-empty asset id,
non-negative spend and sales): among creatives with accumulated
`spend >= MIN_SPEND_FOR_WINNER` the first-encountered one of strictly
greatest derived roas is marked, a group with no threshold-clearing creative
gets no winner, and a single-creative group is never marked. -/
theorem abtest_winner_determination (gb : GroupByTarget) (assets : List BrandAsset)
    (records : List CampaignData) (hrec : ∀ r ∈ records, RecOk r)
    (g : ABTestGroup) (hg : g ∈ accumABGroups gb assets records) :
    C1WinnerSpec g := by
  obtain ⟨hnodup, hok⟩ := accumABGroups_ok gb assets records hrec g hg
  have hids : (g.creatives.map deriveCreative).map (·.videoAssetId) =
      g.creatives.map (·.videoAssetId) := by
    rw [List.map_map]
    rfl
  have hdnodup : ((g.creatives.map deriveCreative).map (·.videoAssetId)).Nodup := by
    rw [hids]
    exact hnodup
  have hdok : ∀ c ∈ g.creatives.map deriveCreative,
      c.isWinner = false ∧ 0 ≤ c.spend ∧ c.videoAssetId ≠ "" ∧ 0 ≤ c.roas := by
    intro c hc
    rw [List.mem_map] at hc
    obtain ⟨c₀, hc₀, rfl⟩ := hc
    obtain ⟨h1, h2, h3, h4⟩ := hok c₀ hc₀
    exact ⟨h1, h2, h4, deriveCreative_roas_nonneg c₀ h2 h3⟩
  have hlen : (g.creatives.map deriveCreative).length = g.creatives.length :=
    List.length_map _ _
  refine ⟨?_, ?_, ?_⟩
  · intro hnoq c hc
    have hscan : winnerScan (g.creatives.map deriveCreative) (-1) none = none :=
      winnerScan_stable _ (-1) none fun x hx hq => absurd hq (hnoq x hx)
    rw [finalizeABGroup_creatives, hscan] at hc
    exact (hdok c (mem_jsSort.mp hc)).1
  · intro hlen1 c hc
    rw [finalizeABGroup_creatives] at hc
    cases hscan : winnerScan (g.creatives.map deriveCreative) (-1) none with
    | none =>
      rw [hscan] at hc
      exact (hdok c (mem_jsSort.mp hc)).1
    | some i =>
      have hcond : ¬ (i ≠ "" ∧ 1 < (g.creatives.map deriveCreative).length) := by
        rintro ⟨_, hgt⟩
        rw [hlen, hlen1] at hgt
        exact absurd hgt (by norm_num)
      simp only [hscan, if_neg hcond] at hc
      exact (hdok c (mem_jsSort.mp hc)).1
  · intro hex hlen2
    have hex' : ∃ c ∈ g.creatives.map deriveCreative,
        MIN_SPEND_FOR_WINNER ≤ c.spend ∧ (-1 : ℚ) < c.roas := by
      obtain ⟨c, hc, hq⟩ := hex
      exact ⟨c, hc, hq, lt_of_lt_of_le (by norm_num) (hdok c hc).2.2.2⟩
    obtain ⟨c₀, hc₀, hq₀, hlt₀, hscan, hmax, hfind⟩ :=
      winnerScan_spec (g.creatives.map deriveCreative) (-1) none hex'
    have hid0 : c₀.videoAssetId ≠ "" := (hdok c₀ hc₀).2.2.1
    have hcond : c₀.videoAssetId ≠ "" ∧ 1 < (g.creatives.map deriveCreative).length := by
      refine ⟨hid0, ?_⟩
      rw [hlen]
      omega
    obtain ⟨s, t, hst⟩ := List.append_of_mem hc₀
    have hsplit : ((s ++ c₀ :: t).map (·.videoAssetId)).Nodup := hst ▸ hdnodup
    rw [List.map_append, List.map_cons] at hsplit
    have hdisj := (List.nodup_append.mp hsplit).2.2
    have hnotin : ∀ x ∈ s, x.videoAssetId ≠ c₀.videoAssetId := by
      intro x hx heq
      apply hdisj (List.mem_map_of_mem _ hx)
      rw [heq]
      exact List.mem_cons_self _ _
    have hmark : markFirst c₀.videoAssetId (g.creatives.map deriveCreative) =
        s ++ { c₀ with isWinner := true } :: t := by
      rw [hst]
      exact markFirst_decomp c₀.videoAssetId c₀ rfl s t hnotin
    have hout : (finalizeABGroup g).creatives =
        jsSort (fun a b => decide (b.roas ≤ a.roas))
          (s ++ { c₀ with isWinner := true } :: t) := by
      rw [finalizeABGroup_creatives]
      simp only [hscan, if_pos hcond, hmark]
    refine ⟨c₀, hc₀, hq₀, ?_, ?_, ?_, ?_⟩
    · intro c hc hq
      exact hmax c hc hq (lt_of_lt_of_le (by norm_num) (hdok c hc).2.2.2)
    · have hpt : ∀ x ∈ g.creatives.map deriveCreative,
          (decide (MIN_SPEND_FOR_WINNER ≤ x.spend) && decide (c₀.roas ≤ x.roas)) =
          (decide (MIN_SPEND_FOR_WINNER ≤ x.spend) && decide ((-1 : ℚ) < x.roas) &&
            decide (c₀.roas ≤ x.roas)) := by
        intro x hx
        have : (-1 : ℚ) < x.roas := lt_of_lt_of_le (by norm_num) (hdok x hx).2.2.2
        simp [this]
      exact (find?_ext (g.creatives.map deriveCreative) hpt).trans hfind
    · rw [hout]
      exact mem_jsSort.mpr (List.mem_append_right s
        (List.mem_cons_self _ t))
    · intro c hc hcw
      rw [hout] at hc
      rcases List.mem_append.mp (mem_jsSort.mp hc) with hcs | hct
      · have : c ∈ g.creatives.map deriveCreative := by
          rw [hst]
          exact List.mem_append_left _ hcs
        exact absurd ((hdok c this).1) (by rw [hcw]; simp)
      · rcases List.mem_cons.mp hct with rfl | hct
        · rfl
        · have : c ∈ g.creatives.map deriveCreative := by
            rw [hst]
            exact List.mem_append_right _ (List.mem_cons_of_mem c₀ hct)
          exact absurd ((hdok c this).1) (by rw [hcw]; simp)

instance (r : CampaignData) : Decidable (RecOk r) := by
  unfold RecOk
  infer_instance

/-- Witness for C1: the contract holds on the concrete two-creative ad-group
accumulated from two valid records (spends 15 and 12, sales 30 and 6). -/
theorem abtest_winner_determination_witness :
    C1WinnerSpec
      ⟨"AG", "adgroup", none,
       [⟨"A", "A", 0, 0, 15, 30, 0, 0, 0, 0, false⟩,
        ⟨"B", "B", 0, 0, 12, 6, 0, 0, 0, 0, false⟩], 27, 0⟩ :=
  abtest_winner_determination .adgroup []
    [{ rec0 with adGroupName := "AG", videoAssetIds := "A", spend := 15, sales := 30 },
     { rec0 with adGroupName := "AG", videoAssetIds := "B", spend := 12, sales := 6 }]
    (by with_unfolding_all decide) _ (by with_unfolding_all decide)

/-- C10 (implicit): because the winner tracker starts at roas `-1` and
compares strictly, a threshold-clearing creative with zero sales (derived
roas `0`) can win — on a two-creative group whose threshold-clearing
creatives all have roas `0`, the first-encountered one is marked. -/
theorem abtest_zero_roas_winner :
    (abTestGroups .adgroup []
      [{ rec0 with adGroupName := "AG", videoAssetIds := "A", spend := 15 },
       { rec0 with adGroupName := "AG", videoAssetIds := "B", spend := 12 }]).map
      (fun g => g.creatives.map fun c => (c.videoAssetId, c.spend, c.roas, c.isWinner)) =
      [[("A", 15, 0, true), ("B", 12, 0, false)]] ∧
    MIN_SPEND_FOR_WINNER ≤ 15 ∧ MIN_SPEND_FOR_WINNER ≤ 12 := by
  with_unfolding_all decide

/-! ## C5: group identity in the competitive view -/

/-- Two keyword records whose distinct `(keywordText, matchType)` pairs
collide on the concatenated group key `keyword:push:broom:`. -/
def kwColl1 : CampaignData :=
  { rec0 with keywordText := "push:broom", matchType := "", videoAssetIds := "A" }

/-- The second colliding record: `keywordText = "push"`, `matchType = "broom:"`. -/
def kwColl2 : CampaignData :=
  { rec0 with keywordText := "push", matchType := "broom:", videoAssetIds := "B" }

/-- Counterexample to C5 as stated: two records that disagree on the
identity tuple (different `keywordText` and different `matchType`) are
nevertheless accumulated into one single competitive group, because the
group key is the colon-joined string `targetType:target:matchType` and the
colon inside the keyword text makes the keys collide. -/
theorem abtest_group_identity_cex :
    (abTestGroups .keyword [] [kwColl1, kwColl2]).length = 1 ∧
    kwColl1.keywordText ≠ kwColl2.keywordText ∧
    kwColl1.matchType ≠ kwColl2.matchType := by
  with_unfolding_all decide

/-- C5 (amended): two resolving records land in the same competitive group
iff their colon-joined key strings `targetType:target:matchType-or-empty`
agree (which coincides with agreement on the identity tuple whenever the
target and match type contain no colon); the push-broom Exact/Broad example
still yields two distinct groups. -/
theorem abtest_group_identity (gb : GroupByTarget) (assets : List BrandAsset)
    (r1 r2 : CampaignData) (k1 k2 : String)
    (h1 : recordKey gb assets r1 = some k1) (h2 : recordKey gb assets r2 = some k2) :
    ((abTestGroups gb assets [r1, r2]).length = 1 ↔ k1 = k2) ∧
    ((abTestGroups gb assets [r1, r2]).length = 2 ↔ k1 ≠ k2) ∧
    (abTestGroups .keyword []
      [{ rec0 with keywordText := "push broom", matchType := "Exact" },
       { rec0 with keywordText := "push broom", matchType := "Broad" }]).map
      (fun g => (g.target, g.matchType)) =
      [("push broom", some "Exact"), ("push broom", some "Broad")] := by
  have hlen : (abTestGroups gb assets [r1, r2]).length =
      (accumABGroups gb assets [r1, r2]).length := by
    rw [abTestGroups, List.length_map]
  rcases hres1 : resolveTarget gb assets r1 with _ | ⟨tt1, tgt1, mt1⟩ <;>
    simp only [recordKey, hres1] at h1
  · exact absurd h1 (by simp)
  rcases hres2 : resolveTarget gb assets r2 with _ | ⟨tt2, tgt2, mt2⟩ <;>
    simp only [recordKey, hres2] at h2
  · exact absurd h2 (by simp)
  by_cases htgt1 : tgt1 = ""
  · rw [if_pos htgt1] at h1
    exact absurd h1 (by simp)
  by_cases htgt2 : tgt2 = ""
  · rw [if_pos htgt2] at h2
    exact absurd h2 (by simp)
  rw [if_neg htgt1, Option.some.injEq] at h1
  rw [if_neg htgt2, Option.some.injEq] at h2
  have hacc : accumABGroups gb assets [r1, r2] =
      upsertGroup assets r2 tt2 tgt2 mt2
        [addRecordToGroup assets r1 ⟨tgt1, tt1, mt1, [], 0, 0⟩] := by
    simp only [accumABGroups, List.foldl_cons, List.foldl_nil, abStep, hres1, hres2,
      if_neg htgt1, if_neg htgt2, upsertGroup]
  have hg1key : groupKeyOf (addRecordToGroup assets r1 ⟨tgt1, tt1, mt1, [], 0, 0⟩) =
      keyStr tt1 tgt1 mt1 := rfl
  refine ⟨?_, ?_, by with_unfolding_all decide⟩ <;>
  · by_cases hkk : k1 = k2
    · have hcond : groupKeyOf (addRecordToGroup assets r1 ⟨tgt1, tt1, mt1, [], 0, 0⟩) =
          keyStr tt2 tgt2 mt2 := by
        rw [hg1key, h1, hkk, h2]
      rw [hlen, hacc, upsertGroup, if_pos hcond]
      simp [hkk]
    · have hcond : ¬ groupKeyOf (addRecordToGroup assets r1 ⟨tgt1, tt1, mt1, [], 0, 0⟩) =
          keyStr tt2 tgt2 mt2 := by
        rw [hg1key, h1, h2]
        exact hkk
      rw [hlen, hacc, upsertGroup, if_neg hcond]
      simp [upsertGroup, hkk]

/-- Witness for C5 (amended): two ad-group records with distinct keys yield
two groups and the key-equality iff holds at the concrete input. -/
theorem abtest_group_identity_witness :
    ((abTestGroups .adgroup []
        [{ rec0 with adGroupName := "AG1" }, { rec0 with adGroupName := "AG2" }]).length = 1 ↔
      "adgroup:AG1:" = "adgroup:AG2:") ∧
    ((abTestGroups .adgroup []
        [{ rec0 with adGroupName := "AG1" }, { rec0 with adGroupName := "AG2" }]).length = 2 ↔
      "adgroup:AG1:" ≠ "adgroup:AG2:") :=
  ⟨(abtest_group_identity .adgroup [] { rec0 with adGroupName := "AG1" }
      { rec0 with adGroupName := "AG2" } "adgroup:AG1:" "adgroup:AG2:"
      (by with_unfolding_all decide) (by with_unfolding_all decide)).1,
   (abtest_group_identity .adgroup [] { rec0 with adGroupName := "AG1" }
      { rec0 with adGroupName := "AG2" } "adgroup:AG1:" "adgroup:AG2:"
      (by with_unfolding_all decide) (by with_unfolding_all decide)).2.1⟩

/-! ## C4: ASIN extraction -/

theorem take10Alnum_length {l cs : List Char} (h : take10Alnum l = some cs) :
    cs.length = 10 := by
  simp only [take10Alnum] at h
  split at h
  · next hcond =>
    obtain rfl : l.take 10 = cs := Option.some.inj h
    exact hcond.1
  · exact absurd h (by simp)

theorem orElse_length {a : Option (List Char)} {f : Unit → Option (List Char)}
    {cs : List Char}
    (ha : ∀ v, a = some v → v.length = 10) (hf : ∀ v, f () = some v → v.length = 10)
    (h : a.orElse f = some cs) : cs.length = 10 := by
  cases hav : a with
  | some v =>
    rw [hav] at h
    simp only [Option.orElse] at h
    exact ha cs (by rw [hav, h])
  | none =>
    rw [hav] at h
    simp only [Option.orElse] at h
    exact hf cs h

theorem tryQuote_length {l cs : List Char} (h : tryQuote l = some cs) :
    cs.length = 10 := by
  cases l with
  | nil =>
    rw [tryQuote] at h
    exact take10Alnum_length h
  | cons c rest =>
    rw [tryQuote] at h
    by_cases hc : c = '"'
    · rw [if_pos hc] at h
      exact orElse_length (fun v hv => take10Alnum_length hv)
        (fun v hv => take10Alnum_length hv) h
    · rw [if_neg hc] at h
      exact take10Alnum_length h

theorem trySep_length {l cs : List Char} (h : trySep l = some cs) :
    cs.length = 10 := by
  cases l with
  | nil =>
    rw [trySep] at h
    exact tryQuote_length h
  | cons c rest =>
    rw [trySep] at h
    by_cases hc : c = '=' ∨ c = ':'
    · rw [if_pos hc] at h
      exact orElse_length (fun v hv => tryQuote_length hv)
        (fun v hv => tryQuote_length hv) h
    · rw [if_neg hc] at h
      exact tryQuote_length h

theorem tryAsinAt_length {l cs : List Char} (h : tryAsinAt l = some cs) :
    cs.length = 10 := by
  unfold tryAsinAt at h
  cases hlit : matchAsinLit l with
  | some rest =>
    rw [hlit] at h
    exact orElse_length (fun v hv => trySep_length hv)
      (fun v hv => take10Alnum_length hv) h
  | none =>
    rw [hlit] at h
    simp only [Option.orElse] at h
    exact take10Alnum_length h

theorem firstAsinMatch_length :
    ∀ {l cs : List Char}, firstAsinMatch l = some cs → cs.length = 10 := by
  intro l
  induction l with
  | nil => intro cs h; exact absurd h (by simp [firstAsinMatch])
  | cons c rest ih =>
    intro cs h
    rw [firstAsinMatch] at h
    exact orElse_length (fun v hv => tryAsinAt_length hv) (fun v hv => ih hv) h

theorem firstAlnum10_length :
    ∀ {l cs : List Char}, firstAlnum10 l = some cs → cs.length = 10 := by
  intro l
  induction l with
  | nil => intro cs h; exact absurd h (by simp [firstAlnum10])
  | cons c rest ih =>
    intro cs h
    rw [firstAlnum10] at h
    exact orElse_length (fun v hv => take10Alnum_length hv) (fun v hv => ih hv) h

theorem captureToUpper_length (cs : List Char) :
    (captureToUpper cs).length = cs.length := by
  simp [captureToUpper, String.length]

theorem extractAsin_length {r : CampaignData} {t : String}
    (h : extractAsin r = some t) : t.length = 10 := by
  unfold extractAsin at h
  by_cases hexpr : r.productTargetingExpression ≠ ""
  · rw [if_pos hexpr] at h
    cases hm : firstAsinMatch r.productTargetingExpression.data with
    | some cs =>
      rw [hm] at h
      simp only [Option.map_some'] at h
      obtain rfl : captureToUpper cs = t := Option.some.inj h
      rw [captureToUpper_length]
      exact firstAsinMatch_length hm
    | none =>
      rw [hm] at h
      simp only [Option.map_none'] at h
      by_cases hid : r.productTargetingId ≠ ""
      · rw [if_pos hid] at h
        cases hm2 : firstAlnum10 r.productTargetingId.data with
        | some cs =>
          rw [hm2] at h
          simp only [Option.map_some'] at h
          obtain rfl : captureToUpper cs = t := Option.some.inj h
          rw [captureToUpper_length]
          exact firstAlnum10_length hm2
        | none =>
          rw [hm2] at h
          exact absurd h (by simp)
      · rw [if_neg hid] at h
        exact absurd h (by simp)
  · rw [if_neg hexpr] at h
    by_cases hid : r.productTargetingId ≠ ""
    · rw [if_pos hid] at h
      cases hm2 : firstAlnum10 r.productTargetingId.data with
      | some cs =>
        rw [hm2] at h
        simp only [Option.map_some'] at h
        obtain rfl : captureToUpper cs = t := Option.some.inj h
        rw [captureToUpper_length]
        exact firstAlnum10_length hm2
      | none =>
        rw [hm2] at h
        exact absurd h (by simp)
    · rw [if_neg hid] at h
      exact absurd h (by simp)

theorem abTestGroups_skip_asin (assets : List BrandAsset)
    (records : List CampaignData) (r : CampaignData) (h : extractAsin r = none) :
    abTestGroups .asin assets (records ++ [r]) = abTestGroups .asin assets records := by
  unfold abTestGroups accumABGroups
  rw [List.foldl_append]
  simp only [List.foldl_cons, List.foldl_nil, abStep, resolveTarget, h]

/-- C4: ASIN target resolution — `asin="B08XYZ1234"` extracts `B08XYZ1234`;
the pattern is case-insensitive and normalised to uppercase
(`asin:b08xyz1234` also gives `B08XYZ1234`); when the expression yields no
match the same ten-character scan falls back to `productTargetingId`; a
record on which both fail contributes to no group of the ASIN view at all;
and every extracted target is a ten-character code. -/
theorem asin_extraction :
    extractAsin { rec0 with productTargetingExpression := "asin=\"B08XYZ1234\"" } =
      some "B08XYZ1234" ∧
    extractAsin { rec0 with productTargetingExpression := "asin:b08xyz1234" } =
      some "B08XYZ1234" ∧
    extractAsin { rec0 with
      productTargetingExpression := "category=\"x\"",
      productTargetingId := "b0abcdef12" } = some "B0ABCDEF12" ∧
    (∀ (assets : List BrandAsset) (records : List CampaignData) (r : CampaignData),
      extractAsin r = none →
      abTestGroups .asin assets (records ++ [r]) = abTestGroups .asin assets records) ∧
    (∀ (r : CampaignData) (t : String), extractAsin r = some t → t.length = 10) :=
  ⟨by decide, by decide, by decide,
   abTestGroups_skip_asin,
   fun _ _ h => extractAsin_length h⟩

/-- Witness for C4: a record whose expression has no ten-character
alphanumeric run and whose targeting id is empty is skipped by the ASIN
view, and a concrete extracted target has length ten. -/
theorem asin_extraction_witness :
    abTestGroups .asin [] ([] ++ [{ rec0 with productTargetingExpression := "loose-match" }]) =
      abTestGroups .asin [] [] ∧
    ("B08XYZ1234" : String).length = 10 :=
  ⟨asin_extraction.2.2.2.1 [] [] { rec0 with productTargetingExpression := "loose-match" }
     (by decide),
   asin_extraction.2.2.2.2 { rec0 with productTargetingExpression := "asin=\"B08XYZ1234\"" }
     "B08XYZ1234" (by decide)⟩

/-! ## C6: label carry-forward across re-upload -/

theorem lookupLabels_not_mem (id : String) :
    ∀ old : List BrandAsset, id ∉ old.map (·.assetId) → lookupLabels old id = none
  | [], _ => rfl
  | a :: rest, h => by
    have hne : ¬ a.assetId = id := fun heq => h (by simp [heq])
    have hrest : id ∉ rest.map (·.assetId) := fun hm => h (List.mem_cons_of_mem _ hm)
    rw [lookupLabels, lookupLabels_not_mem id rest hrest]
    simp [hne]

theorem lookupLabels_eq (oa : BrandAsset) :
    ∀ old : List BrandAsset, (old.map (·.assetId)).Nodup → oa ∈ old →
      lookupLabels old oa.assetId =
        (if oa.creativeName ≠ "" ∨ oa.category ≠ ""
         then some (oa.creativeName, oa.category) else none)
  | [], _, hoa => absurd hoa (by simp)
  | a :: rest, hnd, hoa => by
    rw [List.map_cons, List.nodup_cons] at hnd
    rcases List.mem_cons.mp hoa with rfl | hoa
    · rw [lookupLabels, lookupLabels_not_mem oa.assetId rest hnd.1]
      by_cases hl : oa.creativeName ≠ "" ∨ oa.category ≠ ""
      · simp [hl]
      · simp [hl]
    · have hne : ¬ a.assetId = oa.assetId := by
        intro heq
        exact hnd.1 (heq ▸ List.mem_map_of_mem _ hoa)
      rw [lookupLabels, lookupLabels_eq oa rest hnd.2 hoa]
      by_cases hl : oa.creativeName ≠ "" ∨ oa.category ≠ ""
      · simp [hl]
      · simp [hl, hne]

theorem applyLabelTo_assetId (old : List BrandAsset) (a : BrandAsset) :
    (applyLabelTo old a).assetId = a.assetId := by
  rcases h : lookupLabels old a.assetId with _ | ⟨cn, cat⟩ <;> simp [applyLabelTo, h]

/-- C6: uploading a new report replaces the asset set wholesale — the result
carries exactly the new ids in order, so labels of ids absent from the new
set are discarded — while for every id present in both sets the old
`creativeName` and `category` are carried onto the new asset.  Freshly
parsed assets carry empty labels (both parsing paths construct them so). -/
theorem label_carry_forward (old new : List BrandAsset)
    (hnd : (old.map (·.assetId)).Nodup)
    (hnew : ∀ a ∈ new, a.creativeName = "" ∧ a.category = "") :
    (applyExistingLabels old new).map (·.assetId) = new.map (·.assetId) ∧
    ∀ oa ∈ old, ∀ na ∈ new, na.assetId = oa.assetId →
      { na with creativeName := oa.creativeName, category := oa.category } ∈
        applyExistingLabels old new := by
  constructor
  · rw [applyExistingLabels, List.map_map]
    exact List.map_congr_left fun a _ => applyLabelTo_assetId old a
  · intro oa hoa na hna hmatch
    have hlook : lookupLabels old na.assetId =
        (if oa.creativeName ≠ "" ∨ oa.category ≠ ""
         then some (oa.creativeName, oa.category) else none) := by
      rw [hmatch]
      exact lookupLabels_eq oa old hnd hoa
    by_cases hl : oa.creativeName ≠ "" ∨ oa.category ≠ ""
    · have : applyLabelTo old na =
          { na with creativeName := oa.creativeName, category := oa.category } := by
        rw [applyLabelTo, hlook, if_pos hl]
      exact this ▸ List.mem_map_of_mem (applyLabelTo old) hna
    · have hres : applyLabelTo old na = na := by
        rw [applyLabelTo, hlook, if_neg hl]
      have hempty : oa.creativeName = "" ∧ oa.category = "" := by
        constructor
        · by_contra hcn
          exact hl (Or.inl hcn)
        · by_contra hcat
          exact hl (Or.inr hcat)
      have heq : { na with creativeName := oa.creativeName, category := oa.category } = na := by
        obtain ⟨h1, h2⟩ := hnew na hna
        cases na
        simp only at h1 h2
        simp [hempty.1, hempty.2, h1, h2]
      rw [heq]
      exact hres ▸ List.mem_map_of_mem (applyLabelTo old) hna

/-! ## C7: rows with an empty video-asset-id never enter the record set -/

theorem parseCampaignRow_ids (acc : List CampaignData) (row : RowObj)
    (h : ∀ c ∈ acc, c.videoAssetIds ≠ "") :
    ∀ c ∈ parseCampaignRow acc row, c.videoAssetIds ≠ "" := by
  unfold parseCampaignRow
  by_cases hv : getRowValue row ["Video Asset IDs", "Video Media IDs"] = ""
  · simpa [hv] using h
  · simp only [if_neg hv]
    intro c hc
    rcases List.mem_append.mp hc with hc | hc
    · exact h c hc
    · rcases List.mem_singleton.mp hc with rfl
      exact hv

theorem foldl_parseCampaignRow_ids :
    ∀ (rows : List RowObj) (acc : List CampaignData),
      (∀ c ∈ acc, c.videoAssetIds ≠ "") →
      ∀ c ∈ rows.foldl parseCampaignRow acc, c.videoAssetIds ≠ ""
  | [], _, h => h
  | row :: rest, acc, h =>
    foldl_parseCampaignRow_ids rest (parseCampaignRow acc row)
      (parseCampaignRow_ids acc row h)

theorem campaignsFromSheets_ids (wb : Workbook) :
    ∀ (ps : List String) (acc : List CampaignData),
      (∀ c ∈ acc, c.videoAssetIds ≠ "") →
      ∀ c ∈ (campaignsFromSheets wb ps acc).1, c.videoAssetIds ≠ ""
  | [], _, h => h
  | p :: ps, acc, h => by
    rw [campaignsFromSheets]
    cases hs : findSheet wb p with
    | none => exact campaignsFromSheets_ids wb ps acc h
    | some grid =>
      have hacc' := foldl_parseCampaignRow_ids (sheetToObjects grid) acc h
      by_cases hlen : ((sheetToObjects grid).foldl parseCampaignRow acc).length > 0
      · simpa [hlen] using hacc'
      · simpa [hlen] using campaignsFromSheets_ids wb ps _ hacc'

/-- C7: a performance row whose video-asset-id field resolves to the empty
value never appears among the parsed records — every record that does appear
carries a non-empty `videoAssetIds` — and the rejection raises no per-row
diagnostic: the campaign parser emits at most one (purely structural)
warning, whatever the workbook. -/
theorem parser_rejects_empty_videoAssetIds (wb : Workbook) :
    (∀ rec ∈ (parseCampaignData wb).1, rec.videoAssetIds ≠ "") ∧
    (parseCampaignData wb).2.2.length ≤ 1 := by
  constructor
  · intro rec hrec
    exact campaignsFromSheets_ids wb sheetPatterns [] (by simp) rec hrec
  · show (if _ ∧ _ then _ else if _ then _ else []).length ≤ 1
    split
    · simp
    · split <;> simp

/-- The one-row workbook used by the parser witnesses. -/
def wbSample : Workbook :=
  [("SB Multi Ad Group Campaigns", [["Video Asset IDs", "Spend"], ["vid1", "12.5"]])]

/-- Witness for C7: the record parsed from the sample workbook has a
non-empty id, and the sample's warnings list has at most one entry. -/
theorem parser_rejects_empty_videoAssetIds_witness :
    (⟨"", "", "", "", "", "", "", "", "", "", "", "vid1",
      0, 0, 25/2, 0, 0, 0, 0, 0, 0, 0, 0⟩ : CampaignData).videoAssetIds ≠ "" ∧
    (parseCampaignData wbSample).2.2.length ≤ 1 :=
  ⟨(parser_rejects_empty_videoAssetIds wbSample).1 _ (by with_unfolding_all decide),
   (parser_rejects_empty_videoAssetIds wbSample).2⟩

/-! ## C8: parsing is deterministic -/

/-- C8: the successful parse is a pure function of the decoded workbook
content — parsing identical content yields identical assets, records and
diagnostics, in the same order. -/
theorem parse_deterministic (wb₁ wb₂ : Workbook) (h : wb₁ = wb₂) :
    parseWorkbook wb₁ = parseWorkbook wb₂ := by
  rw [h]

/-- Witness for C8 at the sample workbook. -/
theorem parse_deterministic_witness :
    parseWorkbook wbSample = parseWorkbook wbSample :=
  parse_deterministic wbSample wbSample rfl

/-- Witness for C6: with one labelled old asset `X` (and one old asset `Z`
absent from the new set), re-upload carries `X`'s labels onto the new `X`
and the result's ids are exactly the new ids. -/
theorem label_carry_forward_witness :
    (applyExistingLabels
        [⟨"Video", "X", "n", "u", "MyLabel", "Cat"⟩, ⟨"Video", "Z", "n2", "u2", "L2", "C2"⟩]
        [⟨"Video", "X", "n3", "u3", "", ""⟩, ⟨"Video", "Y", "n4", "u4", "", ""⟩]).map
      (·.assetId) =
      [⟨"Video", "X", "n3", "u3", "", ""⟩, ⟨"Video", "Y", "n4", "u4", "", ""⟩].map
        (fun (a : BrandAsset) => a.assetId) ∧
    (⟨"Video", "X", "n3", "u3", "MyLabel", "Cat"⟩ : BrandAsset) ∈
      applyExistingLabels
        [⟨"Video", "X", "n", "u", "MyLabel", "Cat"⟩, ⟨"Video", "Z", "n2", "u2", "L2", "C2"⟩]
        [⟨"Video", "X", "n3", "u3", "", ""⟩, ⟨"Video", "Y", "n4", "u4", "", ""⟩] :=
  ⟨(label_carry_forward
      [⟨"Video", "X", "n", "u", "MyLabel", "Cat"⟩, ⟨"Video", "Z", "n2", "u2", "L2", "C2"⟩]
      [⟨"Video", "X", "n3", "u3", "", ""⟩, ⟨"Video", "Y", "n4", "u4", "", ""⟩]
      (by decide) (by decide)).1,
   (label_carry_forward
      [⟨"Video", "X", "n", "u", "MyLabel", "Cat"⟩, ⟨"Video", "Z", "n2", "u2", "L2", "C2"⟩]
      [⟨"Video", "X", "n3", "u3", "", ""⟩, ⟨"Video", "Y", "n4", "u4", "", ""⟩]
      (by decide) (by decide)).2
     ⟨"Video", "X", "n", "u", "MyLabel", "Cat"⟩ (by decide)
     ⟨"Video", "X", "n3", "u3", "", ""⟩ (by decide) (by decide)⟩
